import Mathlib

/-!
Shallow embedding of the browser-side controller layer of the
Sportsday-Scoreboardv2 repository (Stimulus controllers compiled from
TypeScript), together with proofs about the score-submission and
status-synchronization subsystem.

Modelling conventions, shared by all components below:

* A DOM element that only carries a string value is modelled as that
  string; a Stimulus target that may be absent is an `Option`.
* A Stimulus target getter (such as `this.buttonTarget`) raises a
  "Missing target" error when no target element exists; computations
  that may raise are modelled in `Except String`.
* `document.dispatchEvent` is modelled by returning the event payload;
  delivering an event to a collection of listeners maps the handler
  over the listeners' states, and an exception thrown inside one
  listener is isolated by the browser event loop (the listener's state
  keeps the mutations made before the throw; other listeners still run).
* `JSON.parse` (a platform builtin) is modelled by its outcome: an
  `Except Unit` value that is an error exactly when the serialized
  string is malformed or empty, and otherwise the parsed object as an
  association list with distinct keys.
* `URLSearchParams` (a platform builtin) is modelled as the ordered
  list of name/value pairs it holds; percent-encoding is modelled as
  the identity, which is faithful on the alphanumeric keys and values
  the page uses.
-/

/-- Helper for `splitPred`: splits the remaining character list at
every separator character, accumulating the current segment in
reverse. -/
def splitPredAux (p : Char → Bool) : List Char → List Char → List String
  | [], acc => [String.mk acc.reverse]
  | c :: cs, acc =>
    if p c then String.mk acc.reverse :: splitPredAux p cs []
    else splitPredAux p cs (c :: acc)

/-- Splitting a string at every character satisfying the predicate,
keeping empty segments, as JavaScript `String.prototype.split` does
with a one-character separator. -/
def splitPred (p : Char → Bool) (s : String) : List String :=
  splitPredAux p s.data []

/-- JavaScript `String.prototype.split` with a one-character
separator. -/
def jsSplit (sep : Char) (s : String) : List String :=
  splitPred (· == sep) s

/-- Joining a list of strings with a separator, as in JavaScript
`Array.prototype.join`. -/
def joinSep (sep : String) : List String → String
  | [] => ""
  | [x] => x
  | x :: y :: xs => x ++ sep ++ joinSep sep (y :: xs)

namespace ScoreSet

/-- A field target of the score-entry form (`score_set_controller.ts`):
its DOM `id` and its current textual `value`. -/
structure Field where
  id : String
  value : String
  deriving Repr, DecidableEq

/-- The state of one mounted score-set controller instance:
`status` is the Stimulus `statusValue` string value, `button` is the
optional button target (holding its current background color when
present), `fields` are the field targets in scope order, and `formId`
is the id of the form target. -/
structure State where
  status : String
  button : Option String
  fields : List Field
  formId : String
  deriving Repr, DecidableEq

/-- The identifier a field contributes to the submission envelope:
`val.id.split("-")[3]` in the source. When the id has fewer than four
dash-separated segments the index result is `undefined`, and
JavaScript coerces `undefined` used as a property key to the string
key `"undefined"`. -/
def fieldKey (id : String) : String :=
  ((jsSplit '-' id)[3]?).getD "undefined"

/-- The claim's own reading of the identifier convention, for
comparison with `fieldKey`: the 4th colon/dash-delimited segment of
the element id. -/
def fourthColonDashSegment (id : String) : Option String :=
  (splitPred (fun c => c == '-' || c == ':') id)[3]?

/-- JavaScript object property assignment `obj[k] = v` on an object
modelled as an association list in insertion order: an existing key
keeps its position and gets the new value, a fresh key is appended. -/
def objSet : List (String × String) → String → String → List (String × String)
  | [], k, v => [(k, v)]
  | p :: rest, k, v =>
    if p.1 = k then (k, v) :: rest else p :: objSet rest k v

/-- JavaScript object property read `obj[k]` on the association-list
model: the value at the first (and, by construction, only) occurrence
of the key. -/
def objLookup (k : String) : List (String × String) → Option String
  | [] => none
  | p :: rest => if p.1 = k then some p.2 else objLookup k rest

/-- The `obj` built by `submit()`:
`this.fieldTargets.forEach((val) => { obj[val.id.split("-")[3]] = val.value })`. -/
def buildScores (fields : List Field) : List (String × String) :=
  fields.foldl (fun obj f => objSet obj (fieldKey f.id) f.value) []

/-- The payload of the `CustomEvent("scoreUpdate")` dispatched by
`submit()`: `detail: { event_id: this.formTarget.id, scores: obj }`. -/
structure SubmissionEvent where
  event_id : String
  scores : List (String × String)
  deriving Repr, DecidableEq

/-- The event dispatched by `submit()`. -/
def submitEvent (s : State) : SubmissionEvent :=
  { event_id := s.formId, scores := buildScores s.fields }

/-- The whole `submit()` method: it builds and dispatches the
submission event, and then, only `if (this.hasButtonTarget)`, sets the
button background to yellow and `statusValue` to pending. Returns the
dispatched event together with the controller state after the call. -/
def submit (s : State) : SubmissionEvent × State :=
  (submitEvent s,
    if s.button.isSome then
      { s with button := some "yellow", status := "pending" }
    else s)

/-- The listener that `connect()` registers for the
`scoreUpdateSubmitted` event: if `statusValue` is pending it sets the
button target's background to green and `statusValue` to completed,
otherwise it does nothing. The source reads `this.buttonTarget`
without a `hasButtonTarget` guard, so when the controller has no
button target the Stimulus target getter throws before `statusValue`
is changed; the error case models that throw. -/
def onScoreUpdateSubmitted (s : State) : Except String State :=
  if s.status = "pending" then
    match s.button with
    | none => .error "Missing target element button"
    | some _ => .ok { s with button := some "green", status := "completed" }
  else .ok s

/-- Delivery of one `scoreUpdateSubmitted` event to every mounted
score-set controller on the page: each listener runs independently;
a listener that throws leaves its own state as it was at the throw
(which is the pre-delivery state, since the throw happens before any
mutation) and does not prevent the other listeners from running. -/
def deliverCompletion (forms : List State) : List State :=
  forms.map fun s =>
    match onScoreUpdateSubmitted s with
    | .ok next => next
    | .error _ => s

end ScoreSet

namespace ScoreShow

/-- A JSON value that can occur as a score entry in the parsed
`scoreValue` object. The page stores small numeric scores; numbers are
modelled as integers, whose JavaScript `toString()` agrees with
`Int.repr`. -/
inductive JsonVal where
  | null : JsonVal
  | num : Int → JsonVal
  | str : String → JsonVal
  | bool : Bool → JsonVal
  deriving Repr, DecidableEq

/-- JavaScript `toString()` on the modelled JSON values. -/
def jsToString : JsonVal → String
  | .null => "null"
  | .num n => toString n
  | .str s => s
  | .bool b => if b then "true" else "false"

/-- The parsed `scoreValue` object: an association list from form id
to score value (`JSON.parse` yields distinct keys). -/
def ScoreMap := List (String × JsonVal)

/-- JavaScript object read `eventScores[formId]`: `none` models the
`undefined` result for a missing key. -/
def scoreLookup (k : String) : List (String × JsonVal) → Option JsonVal
  | [] => none
  | p :: rest => if p.1 = k then some p.2 else scoreLookup k rest

/-- A select target of the score-show controller: its
`data-form-id` attribute (`none` when the attribute is absent, as
`getAttribute` then returns `null`) and its current value. -/
structure Select where
  formId : Option String
  value : String
  deriving Repr, DecidableEq

/-- The body of the `try` block run for one select element in
`connect()`: read the parse outcome of `scoreValue` (a parse failure
propagates out of the block), then compute the value to assign. The
source guard `if (!formId)` is true both for an absent attribute
(`null`) and for an empty attribute string, JavaScript falsiness. -/
def tryBody (parsed : Except Unit (List (String × JsonVal)))
    (formId : Option String) : Except Unit String :=
  match parsed with
  | .error e => .error e
  | .ok eventScores =>
    match formId with
    | none => .ok "0"
    | some fid =>
      if fid = "" then .ok "0"
      else
        match scoreLookup fid eventScores with
        | none => .ok "0"
        | some v => if v = JsonVal.null then .ok "0" else .ok (jsToString v)

/-- The value `connect()` assigns to one select element: the try
block's result, with the catch clause turning any parse failure into
the default value. -/
def newValue (parsed : Except Unit (List (String × JsonVal)))
    (formId : Option String) : String :=
  match tryBody parsed formId with
  | .ok v => v
  | .error _ => "0"

/-- The whole `connect()` of the score-show controller: every select
target in the scope gets the value computed from the parse outcome of
`scoreValue` and its own `data-form-id`. Total by construction: the
catch clause swallows the parse failure, so no error escapes. -/
def connect (parsed : Except Unit (List (String × JsonVal)))
    (selects : List Select) : List Select :=
  selects.map fun sel => { sel with value := newValue parsed sel.formId }

end ScoreShow

namespace FilterRedirect

/-- Parsing a query string the way the `URLSearchParams` constructor
does: strip one leading question mark, split on ampersands, skip empty
segments, and split each segment at its first equals sign (a segment
with no equals sign is a name with an empty value). -/
def stripQuestionMark (s : String) : String :=
  match s.data with
  | '?' :: rest => String.mk rest
  | _ => s

def parseQuery (search : String) : List (String × String) :=
  ((jsSplit '&' (stripQuestionMark search)).filter (· ≠ "")).map fun seg =>
    match jsSplit '=' seg with
    | [] => ("", "")
    | k :: rest => (k, joinSep "=" rest)

/-- Serialization of the held pairs, as in the template string
interpolation of `params` in `filter()`: every pair prints as
name, equals sign, value, joined by ampersands. -/
def serializeQuery (params : List (String × String)) : String :=
  joinSep "&" (params.map fun p => p.1 ++ "=" ++ p.2)

/-- The `URLSearchParams.delete` operation: every pair with the given
name is removed. -/
def deleteParam : List (String × String) → String → List (String × String)
  | [], _ => []
  | p :: rest, k =>
    if p.1 = k then deleteParam rest k else p :: deleteParam rest k

/-- The `URLSearchParams.set` operation: the first pair with the given
name gets the new value, every later pair with that name is removed,
and a fresh name is appended. -/
def setParam : List (String × String) → String → String → List (String × String)
  | [], k, v => [(k, v)]
  | p :: rest, k, v =>
    if p.1 = k then (k, v) :: deleteParam rest k
    else p :: setParam rest k v

/-- The `URLSearchParams.get` operation: the value of the first pair
with the given name. -/
def getParam (k : String) : List (String × String) → Option String
  | [] => none
  | p :: rest => if p.1 = k then some p.2 else getParam k rest

/-- The branch of `filter()` that mutates the parameter list:
`params.set(key, value)` unless the value is the sentinel, in which
case `params.delete(key)`. -/
def applyFilter (params : List (String × String)) (key value : String) :
    List (String × String) :=
  if value ≠ "all" then setParam params key value else deleteParam params key

/-- The whole `filter()` action of the controller in
`sqlite_controller.ts`: read the current query string, mutate it, and
dispatch the `doSafeScoreRedirect` event whose payload is the
serialized parameters behind a leading question mark. Returns the
dispatched payload. -/
def filter (key value search : String) : String :=
  "?" ++ serializeQuery (applyFilter (parseQuery search) key value)

end FilterRedirect

namespace StatusShow

/-- The listener registered by the status-show controller's
`connect()` for the `updateStatus` event: the element's displayed
content is replaced by the event payload, verbatim. -/
def onUpdateStatus (_current payload : String) : String := payload

/-- Delivering a sequence of `updateStatus` events to a mounted status
banner whose initial displayed content is `init`. -/
def run (init : String) (events : List String) : String :=
  events.foldl onUpdateStatus init

end StatusShow

/-! ## Helper lemmas -/

theorem objLookup_objSet_self (l : List (String × String)) (k v : String) :
    ScoreSet.objLookup k (ScoreSet.objSet l k v) = some v := by
  induction l with
  | nil => simp [ScoreSet.objSet, ScoreSet.objLookup]
  | cons p rest ih =>
    by_cases h : p.1 = k
    · simp [ScoreSet.objSet, h, ScoreSet.objLookup]
    · simp [ScoreSet.objSet, h, ScoreSet.objLookup, ih]

theorem objSet_keys_mem (l : List (String × String)) (k v kx : String) :
    kx ∈ (ScoreSet.objSet l k v).map Prod.fst ↔
      kx ∈ l.map Prod.fst ∨ kx = k := by
  induction l with
  | nil => simp [ScoreSet.objSet]
  | cons p rest ih =>
    by_cases h : p.1 = k
    · simp [ScoreSet.objSet, h]
      tauto
    · simp [ScoreSet.objSet, h, ih]
      tauto

theorem buildScores_keys_aux (fs : List ScoreSet.Field)
    (acc : List (String × String)) (k : String) :
    k ∈ (fs.foldl
        (fun obj f => ScoreSet.objSet obj (ScoreSet.fieldKey f.id) f.value)
        acc).map Prod.fst ↔
      k ∈ acc.map Prod.fst ∨ k ∈ fs.map fun f => ScoreSet.fieldKey f.id := by
  induction fs generalizing acc with
  | nil => simp
  | cons f fs ih =>
    simp only [List.foldl_cons, List.map_cons, List.mem_cons]
    rw [ih, objSet_keys_mem]
    tauto

theorem buildScores_append_last (fs : List ScoreSet.Field) (f : ScoreSet.Field) :
    ScoreSet.buildScores (fs ++ [f]) =
      ScoreSet.objSet (ScoreSet.buildScores fs) (ScoreSet.fieldKey f.id) f.value := by
  simp [ScoreSet.buildScores, List.foldl_append]

/-! ## Claim theorems for the score-entry form -/

/-- C1, counterexample: the claim derives the field identifier as the
4th colon/dash-delimited segment of the element id, but the source
splits on dashes only. For a field whose id is colon-delimited the 4th
colon/dash segment exists (it is "d"), yet the envelope records the
value under the key "undefined" and holds nothing under "d". -/
theorem submit_colon_delimiter_counterexample :
    ScoreSet.buildScores [⟨"a:b:c:d", "5"⟩] = [("undefined", "5")] ∧
    ScoreSet.fourthColonDashSegment "a:b:c:d" = some "d" ∧
    ScoreSet.objLookup "d" (ScoreSet.buildScores [⟨"a:b:c:d", "5"⟩]) = none := by
  refine ⟨by decide, by decide, by decide⟩

/-- C1 (amended): submit() builds the envelope over every field target
in scope, keying each field by the 4th dash-delimited segment of its
element id (colons are not delimiters; an id with fewer than four
dash-separated segments contributes under the key "undefined"), with
duplicate keys silently overwritten last-wins, and publishes
the payload with event_id equal to the form target's id. A field
placed last always owns its key in the envelope; the envelope's keys
are exactly the keys derived from the fields; and the spec's Scenario
3 envelope comes out as stated. -/
theorem submit_envelope_spec :
    (∀ (fs : List ScoreSet.Field) (f : ScoreSet.Field),
      ScoreSet.objLookup (ScoreSet.fieldKey f.id)
        (ScoreSet.buildScores (fs ++ [f])) = some f.value) ∧
    (∀ (fs : List ScoreSet.Field) (k : String),
      k ∈ (ScoreSet.buildScores fs).map Prod.fst ↔
        k ∈ fs.map fun f => ScoreSet.fieldKey f.id) ∧
    (∀ s : ScoreSet.State,
      (ScoreSet.submit s).1 =
        { event_id := s.formId, scores := ScoreSet.buildScores s.fields }) ∧
    ScoreSet.buildScores [⟨"row-a-b-evt1", "5"⟩, ⟨"row-a-b-evt2", "2"⟩] =
      [("evt1", "5"), ("evt2", "2")] := by
  refine ⟨fun fs f => ?_, fun fs k => ?_, fun s => rfl, by decide⟩
  · rw [buildScores_append_last, objLookup_objSet_self]
  · simpa using buildScores_keys_aux fs [] k

/-- C2: for a mounted form instance that has its status control, the
completion handler moves a pending instance to completed (with the
confirmed color cue), is a no-op on an instance already completed, and
never moves a completed instance back to pending. -/
theorem completion_monotonic (s : ScoreSet.State) (h : s.button.isSome) :
    (s.status = "pending" →
      ScoreSet.onScoreUpdateSubmitted s =
        .ok { s with status := "completed", button := some "green" }) ∧
    (s.status = "completed" → ScoreSet.onScoreUpdateSubmitted s = .ok s) ∧
    (∀ next, ScoreSet.onScoreUpdateSubmitted s = .ok next →
      s.status = "completed" → next.status = "completed") := by
  obtain ⟨c, hc⟩ := Option.isSome_iff_exists.mp h
  refine ⟨fun hp => ?_, fun hdone => ?_, fun next hnext hdone => ?_⟩
  · simp [ScoreSet.onScoreUpdateSubmitted, hp, hc]
  · have hne : s.status ≠ "pending" := by simp [hdone]
    simp [ScoreSet.onScoreUpdateSubmitted, hne]
  · have hne : s.status ≠ "pending" := by simp [hdone]
    simp [ScoreSet.onScoreUpdateSubmitted, hne] at hnext
    rw [← hnext, hdone]

/-- Witness for completion_monotonic at a concrete pending instance
and a concrete completed instance. -/
theorem completion_monotonic_witness :
    ScoreSet.onScoreUpdateSubmitted ⟨"pending", some "yellow", [], "f"⟩ =
      .ok { (⟨"pending", some "yellow", [], "f"⟩ : ScoreSet.State) with
              status := "completed", button := some "green" } ∧
    ScoreSet.onScoreUpdateSubmitted ⟨"completed", some "green", [], "f"⟩ =
      .ok ⟨"completed", some "green", [], "f"⟩ :=
  ⟨(completion_monotonic ⟨"pending", some "yellow", [], "f"⟩ rfl).1 rfl,
   (completion_monotonic ⟨"completed", some "green", [], "f"⟩ rfl).2.1 rfl⟩

/-- C3, counterexample: the claim says a single completion signal
transitions every currently-pending instance to completed, but a
pending instance with no button target is left pending: the handler
reads the missing button target and throws before reaching the state
update. -/
theorem completion_broadcast_counterexample :
    (ScoreSet.deliverCompletion [⟨"pending", none, [], "f"⟩]).map
        ScoreSet.State.status = ["pending"] ∧
    ("pending" : String) ≠ "completed" := by
  refine ⟨by decide, by decide⟩

/-- C3 (amended): the completion event carries no form identifier, so
one completion signal is delivered to every mounted instance on the
page; each instance that is currently pending and has its button
target transitions to completed, whatever the other instances in the
collection look like (which includes any two forms that submitted
concurrently, since submit() only sets pending when the button target
exists). -/
theorem completion_broadcast_spec (forms : List ScoreSet.State) :
    ∀ (i : Nat) (s : ScoreSet.State),
      forms[i]? = some s → s.status = "pending" → s.button.isSome →
      ∃ next : ScoreSet.State,
        (ScoreSet.deliverCompletion forms)[i]? = some next ∧
        next.status = "completed" := by
  intro i s hi hp hbtn
  obtain ⟨c, hc⟩ := Option.isSome_iff_exists.mp hbtn
  refine ⟨{ s with status := "completed", button := some "green" }, ?_, rfl⟩
  simp only [ScoreSet.deliverCompletion, List.getElem?_map, hi, Option.map_some]
  simp [ScoreSet.onScoreUpdateSubmitted, hp, hc]

/-- Witness for completion_broadcast_spec on a mixed page: a pending
form with its button mounted alongside a pending form without one;
the signal still completes the first instance. -/
theorem completion_broadcast_spec_witness :
    ∃ next : ScoreSet.State,
      (ScoreSet.deliverCompletion
        [⟨"pending", some "yellow", [], "a"⟩,
         ⟨"pending", none, [], "b"⟩])[0]? = some next ∧
      next.status = "completed" :=
  completion_broadcast_spec
    [⟨"pending", some "yellow", [], "a"⟩, ⟨"pending", none, [], "b"⟩]
    0 ⟨"pending", some "yellow", [], "a"⟩ rfl rfl rfl

/-- C8, counterexample: the claim says that on a form with no status
control the completion handler proceeds, treating the missing control
as an absent-feature branch; but the handler has no hasButtonTarget
guard, so on a pending form without the control the target getter
throws. -/
theorem missing_button_counterexample :
    ScoreSet.onScoreUpdateSubmitted ⟨"pending", none, [], "f"⟩ =
      .error "Missing target element button" := by
  unfold ScoreSet.onScoreUpdateSubmitted
  simp

/-- C8 (amended): on a form instance with no status-indicating
control, submit() completes without error — it still builds and
publishes the submission event and skips the pending color cue and the
state change — and the completion handler treats the missing control
as an absent branch only while the state is not pending (it is then a
no-op); if the state is pending, the handler fails on the missing
control and the state is unchanged. -/
theorem missing_button_spec (s : ScoreSet.State) (hb : s.button = none) :
    (ScoreSet.submit s).1 =
      { event_id := s.formId, scores := ScoreSet.buildScores s.fields } ∧
    (ScoreSet.submit s).2 = s ∧
    (s.status ≠ "pending" → ScoreSet.onScoreUpdateSubmitted s = .ok s) ∧
    (s.status = "pending" →
      ScoreSet.onScoreUpdateSubmitted s =
        .error "Missing target element button") := by
  refine ⟨rfl, ?_, fun hne => ?_, fun hp => ?_⟩
  · simp [ScoreSet.submit, hb]
  · simp [ScoreSet.onScoreUpdateSubmitted, hne]
  · simp [ScoreSet.onScoreUpdateSubmitted, hp, hb]

/-- Witness for missing_button_spec at a concrete completed instance
without a button target. -/
theorem missing_button_spec_witness :
    (ScoreSet.submit ⟨"completed", none, [⟨"row-a-b-evt1", "5"⟩], "f"⟩).2 =
      ⟨"completed", none, [⟨"row-a-b-evt1", "5"⟩], "f"⟩ ∧
    ScoreSet.onScoreUpdateSubmitted ⟨"completed", none, [⟨"row-a-b-evt1", "5"⟩], "f"⟩ =
      .ok ⟨"completed", none, [⟨"row-a-b-evt1", "5"⟩], "f"⟩ :=
  ⟨(missing_button_spec ⟨"completed", none, [⟨"row-a-b-evt1", "5"⟩], "f"⟩ rfl).2.1,
   (missing_button_spec ⟨"completed", none, [⟨"row-a-b-evt1", "5"⟩], "f"⟩ rfl).2.2.1
     (by decide)⟩

/-! ## Claim theorems for the score-display initializer -/

/-- C4: when the serialized ScoreMap fails to parse (it is malformed
or empty), the initializer sets every selection control in the scope
to the default value "0", whatever its form id or prior value; the
failure is swallowed inside the per-control catch clause, so the
initializer returns normally and no error propagates. -/
theorem parse_failure_defaults (selects : List ScoreShow.Select) :
    ScoreShow.connect (.error ()) selects =
      selects.map fun sel => { sel with value := "0" } := rfl

/-- C5: with a parsed ScoreMap, a control with no associated form id
(absent attribute, or the empty attribute string, which the source's
falsiness guard also treats as absent) gets "0"; a control whose form
id has a non-null, non-undefined entry gets that score stringified;
a control whose form id is missing from the map, or maps to null,
gets "0". Scenarios 1 and 2 of the spec close the statement. -/
theorem display_init_lookup (m : List (String × ScoreShow.JsonVal)) (fid : String) :
    (ScoreShow.newValue (.ok m) none = "0") ∧
    (ScoreShow.newValue (.ok m) (some "") = "0") ∧
    (fid ≠ "" → ∀ v : ScoreShow.JsonVal, ScoreShow.scoreLookup fid m = some v →
      v ≠ ScoreShow.JsonVal.null →
      ScoreShow.newValue (.ok m) (some fid) = ScoreShow.jsToString v) ∧
    (fid ≠ "" → ScoreShow.scoreLookup fid m = none →
      ScoreShow.newValue (.ok m) (some fid) = "0") ∧
    (fid ≠ "" → ScoreShow.scoreLookup fid m = some ScoreShow.JsonVal.null →
      ScoreShow.newValue (.ok m) (some fid) = "0") ∧
    ScoreShow.connect (.ok [("evt-1", ScoreShow.JsonVal.num 3)])
      [⟨some "evt-1", "x"⟩] = [⟨some "evt-1", "3"⟩] ∧
    ScoreShow.connect (.ok [("evt-1", ScoreShow.JsonVal.num 3)])
      [⟨some "evt-9", "x"⟩] = [⟨some "evt-9", "0"⟩] := by
  refine ⟨rfl, rfl, fun hfid v hv hnull => ?_, fun hfid hnone => ?_,
    fun hfid hnull => ?_, by decide, by decide⟩
  · simp [ScoreShow.newValue, ScoreShow.tryBody, hfid, hv, hnull]
  · simp [ScoreShow.newValue, ScoreShow.tryBody, hfid, hnone]
  · simp [ScoreShow.newValue, ScoreShow.tryBody, hfid, hnull]

/-- Witness for display_init_lookup on the ScoreMap of Scenario 1,
discharging the lookup hypotheses at concrete inputs. -/
theorem display_init_lookup_witness :
    ScoreShow.newValue (.ok [("evt-1", ScoreShow.JsonVal.num 3)]) (some "evt-1") =
      ScoreShow.jsToString (ScoreShow.JsonVal.num 3) ∧
    ScoreShow.newValue (.ok [("evt-1", ScoreShow.JsonVal.num 3)]) (some "evt-9") =
      "0" :=
  ⟨(display_init_lookup [("evt-1", ScoreShow.JsonVal.num 3)] "evt-1").2.2.1
      (by decide) (ScoreShow.JsonVal.num 3) (by decide) (by decide),
   (display_init_lookup [("evt-1", ScoreShow.JsonVal.num 3)] "evt-9").2.2.2.1
      (by decide) (by decide)⟩

/-- C6: the initializer is idempotent — running connect twice with the
same parse outcome over the same scope yields the same control values
as running it once, for every parse outcome and every scope,
regardless of the controls' prior values (the assigned value depends
only on the parse outcome and each control's form id). -/
theorem display_init_idempotent
    (parsed : Except Unit (List (String × ScoreShow.JsonVal)))
    (selects : List ScoreShow.Select) :
    ScoreShow.connect parsed (ScoreShow.connect parsed selects) =
      ScoreShow.connect parsed selects := by
  simp only [ScoreShow.connect, List.map_map]
  exact List.map_congr_left fun sel _ => rfl

/-! ## Claim theorem for the status banner -/

/-- C9: the status banner replaces its displayed content verbatim with
each delivered payload, so after any sequence of status-update events
ending in payload e, the displayed content is exactly e, for every
initial content and every prefix of earlier events. -/
theorem status_banner_last_wins (init e : String) (es : List String) :
    StatusShow.run init (es ++ [e]) = e := by
  simp [StatusShow.run, List.foldl_append, StatusShow.onUpdateStatus]

/-! ## Claim theorems for the filter/redirect coordinator -/

theorem getParam_deleteParam_self (l : List (String × String)) (k : String) :
    FilterRedirect.getParam k (FilterRedirect.deleteParam l k) = none := by
  induction l with
  | nil => rfl
  | cons p rest ih =>
    by_cases h : p.1 = k
    · simp [FilterRedirect.deleteParam, h, ih]
    · simp [FilterRedirect.deleteParam, h, FilterRedirect.getParam, ih]

theorem getParam_deleteParam_ne (l : List (String × String)) (k kx : String)
    (hne : kx ≠ k) :
    FilterRedirect.getParam kx (FilterRedirect.deleteParam l k) =
      FilterRedirect.getParam kx l := by
  induction l with
  | nil => rfl
  | cons p rest ih =>
    have hkkx : ¬(k = kx) := fun hk => hne hk.symm
    by_cases h : p.1 = k
    · have hpx : p.1 ≠ kx := by rw [h]; exact hkkx
      simp [FilterRedirect.deleteParam, h, FilterRedirect.getParam, hpx, hkkx, ih]
    · simp only [FilterRedirect.deleteParam, h, if_false, FilterRedirect.getParam]
      by_cases hx : p.1 = kx
      · simp [hx]
      · simp [hx, ih]

theorem getParam_setParam_self (l : List (String × String)) (k v : String) :
    FilterRedirect.getParam k (FilterRedirect.setParam l k v) = some v := by
  induction l with
  | nil => simp [FilterRedirect.setParam, FilterRedirect.getParam]
  | cons p rest ih =>
    by_cases h : p.1 = k
    · simp [FilterRedirect.setParam, h, FilterRedirect.getParam]
    · simp [FilterRedirect.setParam, h, FilterRedirect.getParam, ih]

theorem getParam_setParam_ne (l : List (String × String)) (k v kx : String)
    (hne : kx ≠ k) :
    FilterRedirect.getParam kx (FilterRedirect.setParam l k v) =
      FilterRedirect.getParam kx l := by
  have hkkx : ¬(k = kx) := fun hk => hne hk.symm
  induction l with
  | nil =>
    simp [FilterRedirect.setParam, FilterRedirect.getParam, hkkx]
  | cons p rest ih =>
    by_cases h : p.1 = k
    · have hpx : p.1 ≠ kx := by rw [h]; exact hkkx
      simp only [FilterRedirect.setParam, h, if_true, FilterRedirect.getParam]
      simp [hkkx, hpx, getParam_deleteParam_ne rest k kx hne]
    · simp only [FilterRedirect.setParam, h, if_false, FilterRedirect.getParam]
      by_cases hx : p.1 = kx
      · simp [hx]
      · simp [hx, ih]

theorem deleteParam_eq_nil_of_all (l : List (String × String)) (k : String)
    (h : ∀ p ∈ l, p.1 = k) : FilterRedirect.deleteParam l k = [] := by
  induction l with
  | nil => rfl
  | cons p rest ih =>
    have hp : p.1 = k := h p (List.mem_cons_self p rest)
    simp only [FilterRedirect.deleteParam, hp, if_true]
    exact ih fun q hq => h q (List.mem_cons_of_mem p hq)

/-- C7: apply(key, "all") removes the key from the query parameters,
and apply(key, v) for v different from the sentinel sets key to v,
overwriting any prior value while leaving every other key's first
value unchanged; the published payload for the spec's Scenario 5 query
strings is exactly as stated. -/
theorem filter_sentinel :
    (∀ (l : List (String × String)) (k : String),
      FilterRedirect.getParam k (FilterRedirect.applyFilter l k "all") = none) ∧
    (∀ (l : List (String × String)) (k v : String), v ≠ "all" →
      FilterRedirect.getParam k (FilterRedirect.applyFilter l k v) = some v) ∧
    (∀ (l : List (String × String)) (k v kx : String), v ≠ "all" → kx ≠ k →
      FilterRedirect.getParam kx (FilterRedirect.applyFilter l k v) =
        FilterRedirect.getParam kx l) ∧
    FilterRedirect.filter "house" "red" "?house=all&year=2024" =
      "?house=red&year=2024" ∧
    FilterRedirect.filter "house" "all" "?house=red&year=2024" =
      "?year=2024" := by
  refine ⟨fun l k => ?_, fun l k v hv => ?_, fun l k v kx hv hx => ?_,
    by decide, by decide⟩
  · simp only [FilterRedirect.applyFilter, ne_eq, not_true_eq_false, if_false,
      ite_false]
    exact getParam_deleteParam_self l k
  · simp only [FilterRedirect.applyFilter, if_pos hv]
    exact getParam_setParam_self l k v
  · simp only [FilterRedirect.applyFilter, if_pos hv]
    exact getParam_setParam_ne l k v kx hx

/-- Witness for filter_sentinel: setting and reading back a concrete
key, and checking an untouched key, on a concrete parameter list. -/
theorem filter_sentinel_witness :
    FilterRedirect.getParam "house"
      (FilterRedirect.applyFilter [("house", "all"), ("year", "2024")]
        "house" "red") = some "red" ∧
    FilterRedirect.getParam "year"
      (FilterRedirect.applyFilter [("house", "all"), ("year", "2024")]
        "house" "red") =
      FilterRedirect.getParam "year" [("house", "all"), ("year", "2024")] :=
  ⟨filter_sentinel.2.1 [("house", "all"), ("year", "2024")] "house" "red"
      (by decide),
   filter_sentinel.2.2.1 [("house", "all"), ("year", "2024")] "house" "red"
      "year" (by decide) (by decide)⟩

/-- C10: when apply(key, "all") deletes the key and the query string
held no other key (every parsed pair carries the deleted key, which in
particular covers an already-empty query string), the published
redirect payload is exactly the one-character string of a question
mark: the event is still dispatched and its payload is not the empty
string. -/
theorem filter_all_lone_question_mark (search k : String)
    (h : ∀ p ∈ FilterRedirect.parseQuery search, p.1 = k) :
    FilterRedirect.filter k "all" search = "?" := by
  simp only [FilterRedirect.filter, FilterRedirect.applyFilter, ne_eq,
    not_true_eq_false, if_false, ite_false,
    deleteParam_eq_nil_of_all (FilterRedirect.parseQuery search) k h]
  rfl

/-- Witness for filter_all_lone_question_mark: deleting the only key
of a one-key query string, and deleting a key from an empty query
string, both publish the lone question mark. -/
theorem filter_all_lone_question_mark_witness :
    FilterRedirect.filter "house" "all" "?house=red" = "?" ∧
    FilterRedirect.filter "house" "all" "" = "?" :=
  ⟨filter_all_lone_question_mark "?house=red" "house" (by decide),
   filter_all_lone_question_mark "" "house" (by decide)⟩
